import Mathlib

/-!
Verification development for the NBA draft-statistics script (`nba.py`).

The script loads a CSV of draft records through `csv.DictReader`
(`load_data`), stores the rows in a SQLite table `players`
(`import_to_db`), and answers six analytical queries, each a single
read-only `SELECT` against that table.

Shallow embedding used here:

* The loader is embedded at the string level: `splitLines` models Python's
  `str.splitlines`, `splitComma` models the `csv` module's comma splitting
  (the dataset and the claims involve no quoted fields, so a field never
  contains a comma, a quote or a line break), `dictGet` models the
  dictionary built by `csv.DictReader` for one data row (later duplicate
  header names overwrite earlier ones, rows shorter than the header are
  padded with the `restval` default `None`), and `load_data` models the
  generator, returning `Except` instead of raising `KeyError`.
* The record produced by the loader (`Player`, from the `namedtuple`)
  carries `Option String` fields: `DictReader` yields strings, with
  `None` for columns absent from a short row.
* The SQLite table is modelled as `StoreState := Option (List PlayerRow)`:
  `none` is the missing-table state (queries raise
  `sqlite3.OperationalError`, embedded as `QueryError.noSuchTable`) and
  `some rows` is the table contents in insertion (rowid) order, which is
  also the scan order of `SELECT ... FROM players` without an index.
  `PlayerRow` types the columns as declared in the `CREATE TABLE`
  statement (text / integer / real, with `first_year` kept nullable since
  the percentage query counts its non-null values); reals are embedded as
  exact rationals.
* SQLite-specific semantics, embedded where the queries rely on them:
  `SELECT name, MAX(avg_points)` returns the bare column from the first
  row (in scan order) attaining the maximum, which is precisely
  `List.argmax`; `GROUP BY year` emits the groups in ascending key order;
  `x LIKE y` without wildcard metacharacters is ASCII-case-insensitive
  equality; `/` on two integer operands is integer division truncating
  toward zero (`Int.tdiv`); `ORDER BY` is embedded as a stable sort
  (`List.insertionSort`) on the scan order.
* Each function's effect on the database is modelled by the list of SQL
  commands it executes (`SqlCmd`); `SELECT` does not modify the table.
-/

/-- One row of the `players` table, typed as declared by the
`CREATE TABLE` statement in `import_to_db` (text, integer, text, text,
integer, integer, real, real); `first_year` is nullable. -/
structure PlayerRow where
  name : String
  year : Int
  first_year : Option Int
  team : String
  college : String
  active : Int
  games : Int
  avg_min : ℚ
  avg_points : ℚ
deriving DecidableEq

/-- The state of the SQLite database: `none` when the `players` table does
not exist, `some rows` when it holds `rows` in insertion (rowid) order. -/
def StoreState : Type := Option (List PlayerRow)

instance {ε α : Type _} [DecidableEq ε] [DecidableEq α] : DecidableEq (Except ε α) := fun x y =>
  match x, y with
  | .ok a, .ok b =>
      if h : a = b then isTrue (by rw [h]) else isFalse (fun he => by cases he; exact h rfl)
  | .ok _, .error _ => isFalse (fun he => by cases he)
  | .error _, .ok _ => isFalse (fun he => by cases he)
  | .error e, .error e' =>
      if h : e = e' then isTrue (by rw [h]) else isFalse (fun he => by cases he; exact h rfl)

/-- Errors surfaced by running a query: `sqlite3.OperationalError` for a
missing table, Python's `ZeroDivisionError` inside
`percentage_of_players_first_year`. -/
inductive QueryError where
  | noSuchTable : QueryError
  | zeroDivision : QueryError
deriving DecidableEq

/-- The SQL commands the script issues, abstracted to their effect on the
`players` table. -/
inductive SqlCmd where
  | createTableIfNotExists : SqlCmd
  | insertRows : List PlayerRow → SqlCmd
  | commit : SqlCmd
  | select : SqlCmd

/-- Effect of one SQL command on the table: `CREATE TABLE IF NOT EXISTS`
creates an empty table only when none exists, `INSERT` appends,
`COMMIT` and `SELECT` leave the logical contents unchanged. -/
def execCmd (st : StoreState) : SqlCmd → StoreState
  | .createTableIfNotExists => some ((st : Option (List PlayerRow)).getD [])
  | .insertRows rs => (st : Option (List PlayerRow)).map (fun t => t ++ rs)
  | .commit => st
  | .select => st

/-- Effect of a command sequence, first command first. -/
def execCmds (cmds : List SqlCmd) (st : StoreState) : StoreState :=
  cmds.foldl execCmd st

/-- Number of rows in the `players` table (0 when the table is missing). -/
def rowCount (st : StoreState) : Nat :=
  ((st : Option (List PlayerRow)).getD []).length

/-- ASCII lower-casing of one character, as SQLite applies it inside
`LIKE`: only the letters A-Z fold. -/
def asciiLowerChar (c : Char) : Char :=
  if 'A' ≤ c ∧ c ≤ 'Z' then Char.ofNat (c.toNat + 32) else c

/-- SQLite `text LIKE pattern` for a pattern containing no `%` or `_`
metacharacter: ASCII-case-insensitive equality of the two strings.
SQLite's default `LIKE` folds only the ASCII range. -/
def sqliteLike (pattern s : String) : Bool :=
  s.data.map asciiLowerChar == pattern.data.map asciiLowerChar

/-- Helper `_total_records(column)` of the source:
`SELECT COUNT({column}) FROM players` counts the rows whose value in that
column is non-null. Modelled for the one column it is called with,
a nullable integer column selected by `col`. -/
def total_records (col : PlayerRow → Option Int) (rows : List PlayerRow) : Nat :=
  rows.countP (fun r => (col r).isSome)

/-- Query `player_with_max_points_per_game`:
`SELECT name, MAX(avg_points) FROM players`, then `fetchone()[0]`.
SQLite returns the bare `name` column from the row attaining the maximum;
its min/max aggregate replaces the accumulator only on a strictly greater
value, so among tied rows the first in scan (insertion) order wins — this
is exactly `List.argmax`. On an empty table the aggregate row is
`(NULL, NULL)` and the function returns Python `None`. -/
def player_with_max_points_per_game (st : StoreState) : Except QueryError (Option String) :=
  match st with
  | none => .error .noSuchTable
  | some rows => .ok ((rows.argmax PlayerRow.avg_points).map PlayerRow.name)

/-- Query `number_of_players_from_duke`:
`SELECT COUNT(name) FROM players WHERE college LIKE 'Duke University'`.
The pattern has no wildcard, so the `WHERE` clause is an
ASCII-case-insensitive comparison of `college` with the pattern. -/
def number_of_players_from_duke (st : StoreState) : Except QueryError Nat :=
  match st with
  | none => .error .noSuchTable
  | some rows => .ok ((rows.filter (fun r => sqliteLike "Duke University" r.college)).length)

/-- Query `percentage_of_players_first_year`:
`total = _total_records("first_year")`, then
`SELECT COUNT(first_year) FROM players WHERE first_year LIKE 1`, then
`(first_year_players / total) * 100` with Python true division.
For an integer value `v`, `v LIKE 1` compares the decimal text of `v`
with the pattern `"1"`, which holds exactly for `v = 1`; a null value
never matches `LIKE`. An empty (or all-null) table makes `total = 0` and
the Python division raise `ZeroDivisionError`. -/
def percentage_of_players_first_year (st : StoreState) : Except QueryError ℚ :=
  match st with
  | none => .error .noSuchTable
  | some rows =>
      let total := total_records PlayerRow.first_year rows
      let first_year_players := rows.countP (fun r => r.first_year == some 1)
      if total = 0 then .error .zeroDivision
      else .ok (((first_year_players : ℚ) / (total : ℚ)) * 100)

/-- Query `avg_years_active_players_stanford`:
`SELECT AVG(active) FROM players WHERE college LIKE 'Stanford University'`.
`AVG` over no rows is `NULL` (Python `None`); otherwise it is the exact
arithmetic mean, a real. -/
def avg_years_active_players_stanford (st : StoreState) : Except QueryError (Option ℚ) :=
  match st with
  | none => .error .noSuchTable
  | some rows =>
      let matching := rows.filter (fun r => sqliteLike "Stanford University" r.college)
      if matching.length = 0 then .ok none
      else .ok (some ((((matching.map PlayerRow.active).sum : Int) : ℚ) / (matching.length : ℚ)))

/-- Occurrences of the draft year `y` in the table: the per-group value of
`COUNT(year)` in the subquery of `year_with_most_drafts`. -/
def countYear (rows : List PlayerRow) (y : Int) : Nat :=
  (rows.map PlayerRow.year).count y

/-- The rows of the subquery
`SELECT year, COUNT(year) as count FROM players GROUP BY year`:
one pair per distinct year; SQLite's `GROUP BY` without an index sorts on
the group key, so the pairs come in ascending year order. -/
def yearCounts (rows : List PlayerRow) : List (Int × Nat) :=
  (List.insertionSort (fun a b : Int => a ≤ b) (rows.map PlayerRow.year).dedup).map
    (fun y => (y, countYear rows y))

/-- Query `year_with_most_drafts`:
`SELECT year, MAX(count) FROM (...)`, then `fetchone()[0]`.
As for the max-points query, the bare `year` column comes from the first
subquery row attaining the maximal count (`List.argmax` over the
year-ascending group rows); an empty table yields `(NULL, NULL)` and the
function returns Python `None`. -/
def year_with_most_drafts (st : StoreState) : Except QueryError (Option Int) :=
  match st with
  | none => .error .noSuchTable
  | some rows => .ok (((yearCounts rows).argmax Prod.snd).map Prod.fst)

/-- Byte-order (ASCII / codepoint) comparison of character lists; for
valid UTF-8, codepoint order coincides with the byte order SQLite's
default BINARY collation uses in `ORDER BY name`. -/
def charListLe : List Char → List Char → Bool
  | [], _ => true
  | _ :: _, [] => false
  | a :: as, b :: bs =>
    if a.toNat < b.toNat then true
    else if b.toNat < a.toNat then false
    else charListLe as bs

/-- String comparison under SQLite's BINARY collation, as a Bool. -/
def strLe (a b : String) : Bool := charListLe a.data b.data

/-- Propositional form of `strLe`, the order used by `ORDER BY name`. -/
def nameLe (a b : String) : Prop := strLe a b = true

instance : DecidableRel nameLe := fun a b => by
  unfold nameLe; infer_instance

/-- Ranking relation of the inner query of
`most_games_per_year_for_veterans`: `ORDER BY games_per_year DESC` on the
`(name, games_per_year)` pairs. -/
def gpyDescRel (a b : String × Int) : Prop := b.2 ≤ a.2

instance : DecidableRel gpyDescRel := fun a b => by
  unfold gpyDescRel; infer_instance

/-- The veterans query with the two literals of the SQL
(`active > 10`, `LIMIT 6`) as parameters:
`SELECT name FROM (SELECT name, games/active as games_per_year FROM
players WHERE active > minActive ORDER BY games_per_year DESC LIMIT topN)
ORDER BY name`. Both `games` and `active` are integer columns, so
`games/active` is SQLite integer division, truncating toward zero
(`Int.tdiv`); the `ORDER BY` of the tie-unaware inner query is embedded
as a stable sort on scan (insertion) order. -/
def most_games_per_year_for_veterans_gen (minActive : Int) (topN : Nat)
    (rows : List PlayerRow) : List String :=
  let inner := (rows.filter (fun r => decide (minActive < r.active))).map
    (fun r => (r.name, Int.tdiv r.games r.active))
  let ranked := List.insertionSort gpyDescRel inner
  List.insertionSort nameLe ((ranked.take topN).map Prod.fst)

/-- Query `most_games_per_year_for_veterans`, exactly as the source fixes
it: `minActive = 10`, `LIMIT 6`. -/
def most_games_per_year_for_veterans (st : StoreState) : Except QueryError (List String) :=
  match st with
  | none => .error .noSuchTable
  | some rows => .ok (most_games_per_year_for_veterans_gen 10 6 rows)

/-- The commands `import_to_db(players)` executes: it always runs the
`CREATE TABLE IF NOT EXISTS`, and only when `players is None` does it run
the `executemany` insert of the loaded rows followed by `commit`.
`loaded` stands for the rows produced by `load_data()` after SQLite
column-affinity conversion. -/
def import_to_db_cmds (players : Option (List PlayerRow)) (loaded : List PlayerRow) :
    List SqlCmd :=
  match players with
  | none => [.createTableIfNotExists, .insertRows loaded, .commit]
  | some _ => [.createTableIfNotExists]

/-- Effect of `import_to_db(players)` on the database state. -/
def import_to_db (players : Option (List PlayerRow)) (loaded : List PlayerRow)
    (st : StoreState) : StoreState :=
  execCmds (import_to_db_cmds players loaded) st

/-- The command trace of `player_with_max_points_per_game`: one `SELECT`. -/
def player_with_max_points_per_game_cmds : List SqlCmd := [.select]

/-- The command trace of `number_of_players_from_duke`: one `SELECT`. -/
def number_of_players_from_duke_cmds : List SqlCmd := [.select]

/-- The command trace of `percentage_of_players_first_year`: the
`_total_records` count and the filtered count, two `SELECT`s. -/
def percentage_of_players_first_year_cmds : List SqlCmd := [.select, .select]

/-- The command trace of `avg_years_active_players_stanford`: one `SELECT`. -/
def avg_years_active_players_stanford_cmds : List SqlCmd := [.select]

/-- The command trace of `year_with_most_drafts`: one `SELECT`. -/
def year_with_most_drafts_cmds : List SqlCmd := [.select]

/-- The command trace of `most_games_per_year_for_veterans`: one `SELECT`. -/
def most_games_per_year_for_veterans_cmds : List SqlCmd := [.select]

/-- The `Player` namedtuple as `load_data` yields it: every field is the
string taken from the CSV row, or `None` when `csv.DictReader` padded a
short row with its `restval` default. No type conversion happens in the
loader. -/
structure Player where
  name : Option String
  year : Option String
  first_year : Option String
  team : Option String
  college : Option String
  active : Option String
  games : Option String
  avg_min : Option String
  avg_points : Option String
deriving DecidableEq

/-- Failure mode of the embedded loader: Python's `KeyError` raised when a
required column name is absent from the CSV header. -/
inductive LoadError where
  | keyError : String → LoadError
deriving DecidableEq

/-- Python `str.splitlines` over the characters: `\n`, `\r` and `\r\n`
each terminate a line, and a trailing segment without a terminator forms
a final line only when it is non-empty. The Bool argument records that
the previous character was `\r`, whose line was already emitted, so an
immediately following `\n` is consumed silently. -/
def splitLinesGo : List Char → List Char → Bool → List String
  | [], acc, _ => if acc = [] then [] else [String.mk acc.reverse]
  | c :: rest, acc, sawCR =>
    if c = '\n' then
      if sawCR then splitLinesGo rest [] false
      else String.mk acc.reverse :: splitLinesGo rest [] false
    else if c = '\r' then String.mk acc.reverse :: splitLinesGo rest [] true
    else splitLinesGo rest (c :: acc) false

/-- Python `str.splitlines`, as `load_data` applies it to the CSV text. -/
def splitLines (s : String) : List String :=
  splitLinesGo s.data [] false

/-- Splitting one CSV line into fields at commas (no quoting in the
modelled inputs). -/
def splitCommaGo : List Char → List Char → List String
  | [], acc => [String.mk acc.reverse]
  | c :: rest, acc =>
    if c = ',' then String.mk acc.reverse :: splitCommaGo rest []
    else splitCommaGo rest (c :: acc)

/-- The `csv` module's field list for one line: a blank line becomes the
empty row (which `DictReader` skips), any other line is split at commas. -/
def splitComma (l : String) : List String :=
  if l.data = [] then [] else splitCommaGo l.data []

/-- The values `csv.DictReader` associates with the header names for one
data row: the row's fields (as far as they go, extras beyond the header
going to the `restkey` entry instead), padded with the `restval` default
`None` up to the header's length. -/
def paddedVals (fieldnames fields : List String) : List (Option String) :=
  (fields.take fieldnames.length).map some ++
    List.replicate (fieldnames.length - fields.length) none

/-- Lookup in the row dictionary `dict(zip(fieldnames, row))` (with
`restval` padding): `none` when the key is not a header name at all
(`KeyError`), otherwise the stored value, where a later occurrence of a
duplicated header name overwrites an earlier one. -/
def dictGet (fieldnames fields : List String) (key : String) : Option (Option String) :=
  (((fieldnames.zip (paddedVals fieldnames fields)).reverse.find?
    (fun kv => kv.1 == key)).map Prod.snd)

/-- One `row[key]` access of `load_data`, with `KeyError` made explicit. -/
def getCol (fieldnames fields : List String) (key : String) : Except LoadError (Option String) :=
  match dictGet fieldnames fields key with
  | none => .error (.keyError key)
  | some v => .ok v

/-- The body of the `load_data` loop: building one `Player` from one data
row, reading the nine columns by name in the source's order. -/
def mkPlayer (fieldnames fields : List String) : Except LoadError Player := do
  let name ← getCol fieldnames fields "Player"
  let year ← getCol fieldnames fields "Draft_Yr"
  let first_year ← getCol fieldnames fields "first_year"
  let team ← getCol fieldnames fields "Team"
  let college ← getCol fieldnames fields "College"
  let active ← getCol fieldnames fields "Yrs"
  let games ← getCol fieldnames fields "Games"
  let avg_min ← getCol fieldnames fields "Minutes.per.Game"
  let avg_points ← getCol fieldnames fields "Points.per.Game"
  .ok ⟨name, year, first_year, team, college, active, games, avg_min, avg_points⟩

/-- The generator loop of `load_data` over the data rows, in file order;
the first failure aborts the whole parse. -/
def load_rows (fieldnames : List String) : List (List String) → Except LoadError (List Player)
  | [] => .ok []
  | r :: rs =>
    match mkPlayer fieldnames r with
    | .error e => .error e
    | .ok p =>
      match load_rows fieldnames rs with
      | .error e => .error e
      | .ok ps => .ok (p :: ps)

/-- `load_data` over the already-fetched CSV text: split into lines, read
the header from the first line, feed every non-blank remaining line
through the loop. With no lines at all, `DictReader` yields nothing. -/
def load_data (content : String) : Except LoadError (List Player) :=
  match splitLines content with
  | [] => .ok []
  | header :: rest =>
      load_rows (splitComma header) ((rest.map splitComma).filter (fun r => r ≠ []))

/-- The nine column names `load_data` reads from each row. -/
def requiredCols : List String :=
  ["Player", "Draft_Yr", "first_year", "Team", "College", "Yrs", "Games",
   "Minutes.per.Game", "Points.per.Game"]

/-- Total variant of `mkPlayer`, used to state in which order and from
which line each record is built: a missing key simply yields `none`
(under the headers the claims quantify over, `mkPlayer` succeeds and
agrees with this). -/
def mkPlayerD (fieldnames fields : List String) : Player :=
  ⟨(dictGet fieldnames fields "Player").getD none,
   (dictGet fieldnames fields "Draft_Yr").getD none,
   (dictGet fieldnames fields "first_year").getD none,
   (dictGet fieldnames fields "Team").getD none,
   (dictGet fieldnames fields "College").getD none,
   (dictGet fieldnames fields "Yrs").getD none,
   (dictGet fieldnames fields "Games").getD none,
   (dictGet fieldnames fields "Minutes.per.Game").getD none,
   (dictGet fieldnames fields "Points.per.Game").getD none⟩

/-- Modelled from the spec: `countByCollege(name)` as §4.2 words it, an
exact, case-sensitive string comparison on the `college` column — the
reference point for claim C4, to be compared with the code's
`LIKE`-based `number_of_players_from_duke`. -/
def countByCollege (rows : List PlayerRow) (name : String) : Nat :=
  (rows.filter (fun r => r.college == name)).length

theorem charListLe_total : ∀ as bs : List Char, charListLe as bs = true ∨ charListLe bs as = true
  | [], _ => .inl rfl
  | _ :: _, [] => .inr rfl
  | a :: as, b :: bs => by
    rcases Nat.lt_trichotomy a.toNat b.toNat with h | h | h
    · exact .inl (by simp [charListLe, h])
    · rcases charListLe_total as bs with ih | ih
      · exact .inl (by simp [charListLe, h, ih])
      · exact .inr (by simp [charListLe, h.symm, ih])
    · exact .inr (by simp [charListLe, h])

theorem charListLe_trans : ∀ as bs cs : List Char,
    charListLe as bs = true → charListLe bs cs = true → charListLe as cs = true
  | [], _, _ => fun _ _ => rfl
  | _ :: _, [], _ => fun hab => by simp [charListLe] at hab
  | _ :: _, _ :: _, [] => fun _ hbc => by simp [charListLe] at hbc
  | a :: as, b :: bs, c :: cs => fun hab hbc => by
    simp only [charListLe] at hab hbc ⊢
    rcases Nat.lt_trichotomy a.toNat b.toNat with hab1 | hab1 | hab1
    · rcases Nat.lt_trichotomy b.toNat c.toNat with hbc1 | hbc1 | hbc1
      · simp [lt_trans hab1 hbc1]
      · simp [hbc1 ▸ hab1]
      · rw [if_neg (by omega), if_pos hbc1] at hbc
        exact absurd hbc (by simp)
    · rcases Nat.lt_trichotomy b.toNat c.toNat with hbc1 | hbc1 | hbc1
      · simp [hab1 ▸ hbc1]
      · rw [if_neg (by omega), if_neg (by omega)] at hab
        rw [if_neg (by omega), if_neg (by omega)] at hbc
        rw [if_neg (by omega : ¬a.toNat < c.toNat), if_neg (by omega : ¬c.toNat < a.toNat)]
        exact charListLe_trans as bs cs hab hbc
      · rw [if_neg (by omega), if_pos hbc1] at hbc
        exact absurd hbc (by simp)
    · rw [if_neg (by omega), if_pos hab1] at hab
      exact absurd hab (by simp)

instance : IsTotal String nameLe :=
  ⟨fun a b => charListLe_total a.data b.data⟩

instance : IsTrans String nameLe :=
  ⟨fun a b c hab hbc => charListLe_trans a.data b.data c.data hab hbc⟩

instance : IsTotal (String × Int) gpyDescRel :=
  ⟨fun a b => le_total b.2 a.2⟩

instance : IsTrans (String × Int) gpyDescRel :=
  ⟨fun _ _ _ hab hbc => le_trans hbc hab⟩

theorem splitCommaGo_ne_nil : ∀ (cs acc : List Char), splitCommaGo cs acc ≠ []
  | [], _ => by simp [splitCommaGo]
  | c :: rest, acc => by
    simp only [splitCommaGo]
    split_ifs
    · simp
    · exact splitCommaGo_ne_nil rest (c :: acc)

theorem splitComma_ne_nil {l : String} (h : l ≠ "") : splitComma l ≠ [] := by
  have hd : l.data ≠ [] := by
    intro hnil
    apply h
    cases l
    simp_all
  simp [splitComma, hd, splitCommaGo_ne_nil]

theorem paddedVals_length (fieldnames fields : List String) :
    (paddedVals fieldnames fields).length = fieldnames.length := by
  simp only [paddedVals, List.length_append, List.length_map, List.length_take,
    List.length_replicate]
  omega

theorem dictGet_isSome {fieldnames : List String} (fields : List String) {k : String}
    (hk : k ∈ fieldnames) : (dictGet fieldnames fields k).isSome := by
  have hmem : k ∈ (fieldnames.zip (paddedVals fieldnames fields)).map Prod.fst := by
    rw [List.map_fst_zip _ _ (le_of_eq (paddedVals_length fieldnames fields).symm)]
    exact hk
  obtain ⟨kv, hkv, hfst⟩ := List.mem_map.1 hmem
  have : ((fieldnames.zip (paddedVals fieldnames fields)).reverse.find?
      (fun kv => kv.1 == k)).isSome := by
    rw [List.find?_isSome]
    exact ⟨kv, List.mem_reverse.2 hkv, by simp [hfst]⟩
  simpa [dictGet] using this

theorem getCol_eq {fieldnames : List String} (fields : List String) {k : String}
    (hk : k ∈ fieldnames) :
    getCol fieldnames fields k = .ok ((dictGet fieldnames fields k).getD none) := by
  obtain ⟨v, hv⟩ := Option.isSome_iff_exists.1 (dictGet_isSome fields hk)
  simp [getCol, hv]

theorem mkPlayer_eq {fieldnames : List String} (fields : List String)
    (h : ∀ k ∈ requiredCols, k ∈ fieldnames) :
    mkPlayer fieldnames fields = .ok (mkPlayerD fieldnames fields) := by
  rw [mkPlayer, getCol_eq fields (h _ (by simp [requiredCols])),
    getCol_eq fields (h "Draft_Yr" (by simp [requiredCols])),
    getCol_eq fields (h "first_year" (by simp [requiredCols])),
    getCol_eq fields (h "Team" (by simp [requiredCols])),
    getCol_eq fields (h "College" (by simp [requiredCols])),
    getCol_eq fields (h "Yrs" (by simp [requiredCols])),
    getCol_eq fields (h "Games" (by simp [requiredCols])),
    getCol_eq fields (h "Minutes.per.Game" (by simp [requiredCols])),
    getCol_eq fields (h "Points.per.Game" (by simp [requiredCols]))]
  rfl

theorem load_rows_ok {fieldnames : List String}
    (h : ∀ k ∈ requiredCols, k ∈ fieldnames) :
    ∀ rs : List (List String), load_rows fieldnames rs = .ok (rs.map (mkPlayerD fieldnames))
  | [] => rfl
  | r :: rs => by
    rw [load_rows, mkPlayer_eq r h, load_rows_ok h rs]
    rfl

/-- Ranking relation of the spec's `topVeteransByGamesPerYear`: ratio
descending, ties broken alphabetically by name. -/
def specVeteransRank (a b : String × ℚ) : Prop :=
  b.2 < a.2 ∨ (a.2 = b.2 ∧ nameLe a.1 b.1)

instance : DecidableRel specVeteransRank := fun a b => by
  unfold specVeteransRank; infer_instance

/-- Modelled from the spec: `topVeteransByGamesPerYear(minActiveYears,
topN)` as §4.2 words it — among records with `active > minActiveYears`,
rank by `games / active` under real (exact rational) division,
descending, ties broken alphabetically by name, take the top N, and
return those names sorted alphabetically. The reference point for claim
C2, to be compared with the code's `most_games_per_year_for_veterans`. -/
def topVeteransByGamesPerYear (minActive : Int) (topN : Nat)
    (rows : List PlayerRow) : List String :=
  let cand := (rows.filter (fun r => decide (minActive < r.active))).map
    (fun r => (r.name, Rat.divInt r.games r.active))
  let ranked := List.insertionSort specVeteransRank cand
  List.insertionSort nameLe ((ranked.take topN).map Prod.fst)

/-! ## Claim theorems -/

/-- C1: for every non-empty players table, `player_with_max_points_per_game`
returns the name of a row whose `avg_points` is maximal over the table,
and among the rows attaining that maximum it is the first in insertion
order (the row of least index). -/
theorem max_points_player_correct (rows : List PlayerRow) (h : rows ≠ []) :
    ∃ r : PlayerRow,
      player_with_max_points_per_game (some rows) = .ok (some r.name) ∧
      r ∈ rows ∧
      (∀ q ∈ rows, q.avg_points ≤ r.avg_points) ∧
      (∀ q ∈ rows, r.avg_points ≤ q.avg_points → rows.indexOf r ≤ rows.indexOf q) := by
  cases harg : rows.argmax PlayerRow.avg_points with
  | none => exact absurd (List.argmax_eq_none.1 harg) h
  | some r =>
      have hm : r ∈ rows.argmax PlayerRow.avg_points := harg ▸ rfl
      refine ⟨r, ?_, List.argmax_mem hm, fun q hq => List.le_of_mem_argmax hq hm,
        fun q hq hle => List.index_of_argmax hm hq hle⟩
      show Except.ok ((rows.argmax PlayerRow.avg_points).map PlayerRow.name) =
        Except.ok (some r.name)
      rw [harg]
      rfl

/-- Sample table for the max-points witness: two rows tied on
`avg_points`. -/
def maxRows : List PlayerRow :=
  [⟨"A", 2000, none, "T", "", 1, 1, 0, 5⟩, ⟨"B", 2000, none, "T", "", 1, 1, 0, 5⟩]

/-- Witness for C1 at a concrete two-row table with tied `avg_points`. -/
theorem max_points_player_correct_witness :
    maxRows ≠ [] ∧
    ∃ r : PlayerRow,
      player_with_max_points_per_game (some maxRows) = .ok (some r.name) ∧
      r ∈ maxRows ∧
      (∀ q ∈ maxRows, q.avg_points ≤ r.avg_points) ∧
      (∀ q ∈ maxRows, r.avg_points ≤ q.avg_points → maxRows.indexOf r ≤ maxRows.indexOf q) :=
  ⟨by decide, max_points_player_correct maxRows (by decide)⟩

/-- C5: whenever at least one row has a non-null `first_year`,
`percentage_of_players_first_year` returns exactly
`100 * count(first_year = 1) / count(first_year non-null)` as an exact
rational, with no rounding inside the query. -/
theorem percentage_first_year_formula (rows : List PlayerRow)
    (h : 0 < total_records PlayerRow.first_year rows) :
    percentage_of_players_first_year (some rows) =
      .ok (100 * (rows.countP (fun r => r.first_year == some 1) : ℚ) /
        (total_records PlayerRow.first_year rows : ℚ)) := by
  have h0 : ¬ total_records PlayerRow.first_year rows = 0 := by omega
  unfold percentage_of_players_first_year
  simp only [h0, if_false, Except.ok.injEq]
  ring

/-- Sample table for the percentage witness: one rookie row, one
non-rookie row and one row with null `first_year`. -/
def pctRows : List PlayerRow :=
  [⟨"A", 2000, some 1, "T", "", 1, 1, 0, 0⟩, ⟨"B", 2000, some 0, "T", "", 1, 1, 0, 0⟩,
   ⟨"C", 2000, none, "T", "", 1, 1, 0, 0⟩]

/-- Witness for C5 at a concrete three-row table. -/
theorem percentage_first_year_formula_witness :
    0 < total_records PlayerRow.first_year pctRows ∧
    percentage_of_players_first_year (some pctRows) =
      .ok (100 * (pctRows.countP (fun r => r.first_year == some 1) : ℚ) /
        (total_records PlayerRow.first_year pctRows : ℚ)) :=
  ⟨by decide, percentage_first_year_formula pctRows (by decide)⟩

/-- Single-row table whose `college` differs from `'Duke University'`
only in letter case. -/
def dukeRows : List PlayerRow :=
  [⟨"A", 2000, none, "T", "DUKE UNIVERSITY", 1, 1, 0, 0⟩]

/-- C4 counterexample: the code's `WHERE college LIKE 'Duke University'`
counts a row whose college is `'DUKE UNIVERSITY'`, while the claimed
exact case-sensitive comparison (`countByCollege`) does not; the claim
fails on this one-row table. -/
theorem duke_count_counterexample :
    number_of_players_from_duke (some dukeRows) = .ok 1 ∧
    countByCollege dukeRows "Duke University" = 0 :=
  ⟨by decide, by decide⟩

/-- C4 amended: `number_of_players_from_duke` counts the rows whose
`college` equals `'Duke University'` under SQLite's ASCII-case-insensitive
`LIKE` comparison (the pattern contains no wildcard); this count always
bounds the case-sensitive count from above, and when no row matches even
case-insensitively the query returns 0 rather than an error. -/
theorem duke_count_amended (rows : List PlayerRow) :
    ∃ n : Nat,
      number_of_players_from_duke (some rows) = .ok n ∧
      n = rows.countP (fun r => sqliteLike "Duke University" r.college) ∧
      countByCollege rows "Duke University" ≤ n ∧
      ((∀ r ∈ rows, sqliteLike "Duke University" r.college = false) → n = 0) := by
  refine ⟨(rows.filter (fun r => sqliteLike "Duke University" r.college)).length, ?_, ?_, ?_, ?_⟩
  · rfl
  · exact (List.countP_eq_length_filter _ _).symm
  · unfold countByCollege
    rw [← List.countP_eq_length_filter, ← List.countP_eq_length_filter]
    refine List.countP_mono_left (fun r _ hr => ?_)
    have : r.college = "Duke University" := by simpa using hr
    rw [this]
    decide
  · intro hnone
    rw [← List.countP_eq_length_filter]
    rw [List.countP_eq_zero]
    intro r hr
    simp [hnone r hr]

/-- C9: calling `import_to_db` with a non-None `players` argument only
runs the `CREATE TABLE IF NOT EXISTS`: the table exists afterwards, no
row is inserted and no commit happens, so the row count is unchanged. -/
theorem import_to_db_non_none_inserts_nothing (ps loaded : List PlayerRow)
    (st : StoreState) :
    (import_to_db (some ps) loaded st).isSome = true ∧
    rowCount (import_to_db (some ps) loaded st) = rowCount st :=
  ⟨rfl, rfl⟩

/-- C10: the six query functions execute only `SELECT` statements, so
running any of them leaves the players table exactly as it was. -/
theorem queries_leave_table_unchanged (st : StoreState) :
    execCmds player_with_max_points_per_game_cmds st = st ∧
    execCmds number_of_players_from_duke_cmds st = st ∧
    execCmds percentage_of_players_first_year_cmds st = st ∧
    execCmds avg_years_active_players_stanford_cmds st = st ∧
    execCmds year_with_most_drafts_cmds st = st ∧
    execCmds most_games_per_year_for_veterans_cmds st = st :=
  ⟨rfl, rfl, rfl, rfl, rfl, rfl⟩

/-- C8 counterexample: on the empty (but existing) players table the
Duke-count query returns `0` successfully instead of failing, so the
claim that every query fails with a `QueryError` on an empty table is
false. -/
theorem empty_table_query_succeeds :
    number_of_players_from_duke (some []) = .ok 0 :=
  rfl

/-- C8 amended: against a missing players table every query fails
(`sqlite3.OperationalError`, modelled as `QueryError.noSuchTable`);
against an empty table only the percentage query fails (with Python's
`ZeroDivisionError`), while the count query returns 0, the two aggregate
lookups and the year query return a null result, and the veterans query
returns the empty list. -/
theorem queries_on_missing_or_empty_table :
    player_with_max_points_per_game none = .error .noSuchTable ∧
    number_of_players_from_duke none = .error .noSuchTable ∧
    percentage_of_players_first_year none = .error .noSuchTable ∧
    avg_years_active_players_stanford none = .error .noSuchTable ∧
    year_with_most_drafts none = .error .noSuchTable ∧
    most_games_per_year_for_veterans none = .error .noSuchTable ∧
    player_with_max_points_per_game (some []) = .ok none ∧
    number_of_players_from_duke (some []) = .ok 0 ∧
    percentage_of_players_first_year (some []) = .error .zeroDivision ∧
    avg_years_active_players_stanford (some []) = .ok none ∧
    year_with_most_drafts (some []) = .ok none ∧
    most_games_per_year_for_veterans (some []) = .ok [] :=
  ⟨rfl, rfl, rfl, rfl, rfl, rfl, rfl, rfl, rfl, rfl, rfl, rfl⟩

theorem load_data_eq (content header : String) (rest : List String)
    (hsplit : splitLines content = header :: rest) :
    load_data content =
      load_rows (splitComma header) ((rest.map splitComma).filter (fun r => r ≠ [])) := by
  unfold load_data
  rw [hsplit]

/-- C6: for every valid CSV text (a header line containing the nine
required column names followed by non-blank data lines), `load_data`
parses successfully and yields exactly one `Player` record per non-header
line, in file order (the i-th record is built from the i-th data line). -/
theorem load_data_row_count (content header : String) (rest : List String)
    (hsplit : splitLines content = header :: rest)
    (hhdr : ∀ k ∈ requiredCols, k ∈ splitComma header)
    (hblank : ∀ l ∈ rest, l ≠ "") :
    load_data content =
      .ok (rest.map (fun l => mkPlayerD (splitComma header) (splitComma l))) ∧
    (rest.map (fun l => mkPlayerD (splitComma header) (splitComma l))).length = rest.length := by
  constructor
  · rw [load_data_eq content header rest hsplit]
    have hfilter : (rest.map splitComma).filter (fun r => r ≠ []) = rest.map splitComma := by
      rw [List.filter_eq_self]
      intro a ha
      obtain ⟨l, hl, rfl⟩ := List.mem_map.1 ha
      simpa using splitComma_ne_nil (hblank l hl)
    rw [hfilter, load_rows_ok hhdr, List.map_map]
    rfl
  · rw [List.length_map]

/-- The header line of the modelled CSV fixtures. -/
def csvHeaderLine : String :=
  "Player,Draft_Yr,first_year,Team,College,Yrs,Games,Minutes.per.Game,Points.per.Game"

/-- A CSV text with one complete data row. -/
def fullRowCsv : String :=
  csvHeaderLine ++ "\nMichael Jordan,1984,1,CHI,North Carolina,15,1072,38.3,30.12"

/-- A CSV text whose single data row has only two of the nine columns. -/
def shortRowCsv : String :=
  csvHeaderLine ++ "\nMichael Jordan,1984"

/-- Witness for C6 at a concrete one-row CSV text. -/
theorem load_data_row_count_witness :
    splitLines fullRowCsv =
      csvHeaderLine :: ["Michael Jordan,1984,1,CHI,North Carolina,15,1072,38.3,30.12"] ∧
    (∀ k ∈ requiredCols, k ∈ splitComma csvHeaderLine) ∧
    (∀ l ∈ ["Michael Jordan,1984,1,CHI,North Carolina,15,1072,38.3,30.12"], l ≠ "") ∧
    (load_data fullRowCsv =
      .ok (["Michael Jordan,1984,1,CHI,North Carolina,15,1072,38.3,30.12"].map
        (fun l => mkPlayerD (splitComma csvHeaderLine) (splitComma l))) ∧
    (["Michael Jordan,1984,1,CHI,North Carolina,15,1072,38.3,30.12"].map
      (fun l => mkPlayerD (splitComma csvHeaderLine) (splitComma l))).length =
        ["Michael Jordan,1984,1,CHI,North Carolina,15,1072,38.3,30.12"].length) :=
  ⟨by decide, by decide, by decide,
    load_data_row_count fullRowCsv csvHeaderLine
      ["Michael Jordan,1984,1,CHI,North Carolina,15,1072,38.3,30.12"]
      (by decide) (by decide) (by decide)⟩

/-- C7 counterexample: on a CSV whose data row is missing seven of the
nine columns, `load_data` does not fail with any parse error; it yields a
record whose missing fields are `None` (the `csv.DictReader` `restval`
padding), refuting the claimed `ParseError`-with-row-index behavior. -/
theorem short_row_yields_partial_record :
    load_data shortRowCsv =
      .ok [⟨some "Michael Jordan", some "1984", none, none, none, none, none, none, none⟩] := by
  decide

/-- C7 amended: as long as the header contains the nine required column
names, `load_data` succeeds whatever the shape of the data rows — a row
missing columns is padded with `None` rather than rejected; in
particular no row construction (`mkPlayer`) can fail, for any row. -/
theorem load_data_total_for_required_header (content header : String) (rest : List String)
    (hsplit : splitLines content = header :: rest)
    (hhdr : ∀ k ∈ requiredCols, k ∈ splitComma header) :
    ∃ recs : List Player, load_data content = .ok recs ∧
      ∀ fields : List String, ∃ p : Player, mkPlayer (splitComma header) fields = .ok p := by
  refine ⟨(((rest.map splitComma).filter (fun r => r ≠ [])).map (mkPlayerD (splitComma header))),
    ?_, fun fields => ⟨mkPlayerD (splitComma header) fields, mkPlayer_eq fields hhdr⟩⟩
  rw [load_data_eq content header rest hsplit, load_rows_ok hhdr]

/-- Witness for the amended C7 at the concrete short-row CSV text. -/
theorem load_data_total_witness :
    splitLines shortRowCsv = csvHeaderLine :: ["Michael Jordan,1984"] ∧
    (∀ k ∈ requiredCols, k ∈ splitComma csvHeaderLine) ∧
    (∃ recs : List Player, load_data shortRowCsv = .ok recs ∧
      ∀ fields : List String, ∃ p : Player, mkPlayer (splitComma csvHeaderLine) fields = .ok p) :=
  ⟨by decide, by decide,
    load_data_total_for_required_header shortRowCsv csvHeaderLine ["Michael Jordan,1984"]
      (by decide) (by decide)⟩

/-- Seven veteran rows, all with `active = 11`, inserted in reverse
alphabetical order with strictly increasing `games`: their real
games-per-year ratios are pairwise distinct while all their SQLite
integer ratios are `10`. -/
def vetRows : List PlayerRow :=
  [⟨"Ggg", 1990, none, "T", "", 11, 110, 0, 0⟩, ⟨"Fff", 1990, none, "T", "", 11, 111, 0, 0⟩,
   ⟨"Eee", 1990, none, "T", "", 11, 112, 0, 0⟩, ⟨"Ddd", 1990, none, "T", "", 11, 113, 0, 0⟩,
   ⟨"Ccc", 1990, none, "T", "", 11, 114, 0, 0⟩, ⟨"Bbb", 1990, none, "T", "", 11, 115, 0, 0⟩,
   ⟨"Aaa", 1990, none, "T", "", 11, 116, 0, 0⟩]

/-- C2 counterexample: on `vetRows` the code (integer division, ties in
scan order) keeps the first six inserted rows and drops `"Aaa"`, while
the spec's ranking (real division, alphabetical ties) keeps the six
largest real ratios and drops `"Ggg"`; the two results differ, refuting
the claim for the code's own parameters `(10, 6)`. -/
theorem veterans_counterexample :
    most_games_per_year_for_veterans (some vetRows) =
      .ok ["Bbb", "Ccc", "Ddd", "Eee", "Fff", "Ggg"] ∧
    topVeteransByGamesPerYear 10 6 vetRows = ["Aaa", "Bbb", "Ccc", "Ddd", "Eee", "Fff"] ∧
    (["Bbb", "Ccc", "Ddd", "Eee", "Fff", "Ggg"] : List String) ≠
      ["Aaa", "Bbb", "Ccc", "Ddd", "Eee", "Fff"] :=
  ⟨by decide, by decide, by decide⟩

/-- C2 amended: for every table and every `(minActive, topN)` (the code
fixes `10` and `6`), the veterans query considers exactly the records
with `active > minActive`, ranks them by `games / active` computed with
SQLite integer division (truncating toward zero), descending, with ties
falling to the store's scan order rather than to names, takes `topN`
rows of that ranking — every kept row's ratio is at least every dropped
row's ratio — and returns the kept names sorted alphabetically. -/
theorem sorted_take_drop_facts {α : Type _} (r : α → α → Prop) [DecidableRel r]
    [IsTotal α r] [IsTrans α r] (l : List α) (n : Nat) :
    List.Perm ((List.insertionSort r l).take n ++ (List.insertionSort r l).drop n) l ∧
    ((List.insertionSort r l).take n).length = min n l.length ∧
    ∀ a ∈ (List.insertionSort r l).take n, ∀ b ∈ (List.insertionSort r l).drop n, r a b := by
  refine ⟨?_, ?_, ?_⟩
  · rw [List.take_append_drop]
    exact List.perm_insertionSort r l
  · rw [List.length_take, List.length_insertionSort]
  · intro a ha b hb
    have hsorted := List.sorted_insertionSort r l
    rw [← List.take_append_drop n (List.insertionSort r l)] at hsorted
    exact (List.pairwise_append.1 hsorted).2.2 a ha b hb

theorem veterans_amended (minActive : Int) (topN : Nat) (rows : List PlayerRow) :
    ∃ sel rest : List (String × Int),
      List.Perm (sel ++ rest)
        ((rows.filter (fun r => decide (minActive < r.active))).map
          (fun r => (r.name, Int.tdiv r.games r.active))) ∧
      sel.length =
        min topN (((rows.filter (fun r => decide (minActive < r.active))).map
          (fun r => (r.name, Int.tdiv r.games r.active))).length) ∧
      (∀ a ∈ sel, ∀ b ∈ rest, b.2 ≤ a.2) ∧
      most_games_per_year_for_veterans_gen minActive topN rows =
        List.insertionSort nameLe (sel.map Prod.fst) ∧
      List.Sorted nameLe (most_games_per_year_for_veterans_gen minActive topN rows) ∧
      most_games_per_year_for_veterans (some rows) =
        .ok (most_games_per_year_for_veterans_gen 10 6 rows) := by
  obtain ⟨h1, h2, h3⟩ := sorted_take_drop_facts gpyDescRel
    ((rows.filter (fun r => decide (minActive < r.active))).map
      (fun r => (r.name, Int.tdiv r.games r.active))) topN
  exact ⟨_, _, h1, h2, h3, rfl, List.sorted_insertionSort nameLe _, rfl⟩

theorem indexOf_le_of_sorted_map {β : Type _} [DecidableEq β] :
    ∀ (ss : List Int), List.Sorted (fun a b : Int => a ≤ b) ss →
      ∀ (g : Int → β) (fst : β → Int), (∀ y, fst (g y) = y) →
        ∀ p q : β, p ∈ ss.map g → q ∈ ss.map g →
          (ss.map g).indexOf p ≤ (ss.map g).indexOf q → fst p ≤ fst q
  | [], _, _, _, _, p, _, hp, _, _ => by simp at hp
  | y :: ss, hsort, g, fst, hg, p, q, hp, hq, hidx => by
    rw [List.map_cons] at hp hq hidx
    by_cases hpy : p = g y
    · rcases List.mem_cons.1 hq with hqy | hqss
      · rw [hpy, hqy]
      · obtain ⟨y2, hy2, hgy2⟩ := List.mem_map.1 hqss
        rw [hpy, hg, ← hgy2, hg]
        exact (List.sorted_cons.1 hsort).1 y2 hy2
    · have hpss : p ∈ ss.map g := (List.mem_cons.1 hp).resolve_left hpy
      by_cases hqy : q = g y
      · rw [List.indexOf_cons_ne _ (fun hh => hpy hh.symm), hqy,
          List.indexOf_cons_self] at hidx
        omega
      · have hqss : q ∈ ss.map g := (List.mem_cons.1 hq).resolve_left hqy
        rw [List.indexOf_cons_ne _ (fun hh => hpy hh.symm),
          List.indexOf_cons_ne _ (fun hh => hqy hh.symm)] at hidx
        exact indexOf_le_of_sorted_map ss (List.sorted_cons.1 hsort).2 g fst hg p q
          hpss hqss (by omega)

/-- C3: for every non-empty players table, `year_with_most_drafts`
returns a draft year present in the table whose occurrence count is
maximal, and among the years tied for that maximal count it returns the
smallest. -/
theorem year_with_most_drafts_correct (rows : List PlayerRow) (h : rows ≠ []) :
    ∃ y : Int, year_with_most_drafts (some rows) = .ok (some y) ∧
      (∃ r ∈ rows, r.year = y) ∧
      (∀ y' : Int, countYear rows y' ≤ countYear rows y) ∧
      (∀ y' : Int, countYear rows y' = countYear rows y → y ≤ y') := by
  have hyne : rows.map PlayerRow.year ≠ [] := fun heq => h (List.map_eq_nil_iff.1 heq)
  have hperm := List.perm_insertionSort (fun a b : Int => a ≤ b) (rows.map PlayerRow.year).dedup
  have hyc : yearCounts rows =
      (List.insertionSort (fun a b : Int => a ≤ b) (rows.map PlayerRow.year).dedup).map
        (fun y => (y, countYear rows y)) := rfl
  cases harg : (yearCounts rows).argmax Prod.snd with
  | none =>
      exfalso
      have hnil := List.argmax_eq_none.1 harg
      rw [hyc] at hnil
      have hssnil := List.map_eq_nil_iff.1 hnil
      rw [hssnil] at hperm
      exact hyne ((List.dedup_eq_nil _).1 hperm.symm.eq_nil)
  | some p =>
      have hpargmax : p ∈ (yearCounts rows).argmax Prod.snd := harg ▸ rfl
      have hpmem : p ∈ yearCounts rows := List.argmax_mem hpargmax
      obtain ⟨y₀, hy₀ss, hy₀p⟩ := List.mem_map.1 (hyc ▸ hpmem)
      have hp1 : p.1 = y₀ := by rw [← hy₀p]
      have hp2 : p.2 = countYear rows y₀ := by rw [← hy₀p]
      have hy₀ys : y₀ ∈ rows.map PlayerRow.year :=
        List.mem_dedup.1 (hperm.mem_iff.1 hy₀ss)
      refine ⟨p.1, ?_, ?_, ?_, ?_⟩
      · show Except.ok (((yearCounts rows).argmax Prod.snd).map Prod.fst) =
          Except.ok (some p.1)
        rw [harg]
        rfl
      · rw [hp1]
        obtain ⟨r, hr, hry⟩ := List.mem_map.1 hy₀ys
        exact ⟨r, hr, hry⟩
      · intro y'
        by_cases hy' : y' ∈ rows.map PlayerRow.year
        · have hy'c : (y', countYear rows y') ∈ yearCounts rows := by
            rw [hyc]
            exact List.mem_map.2 ⟨y', hperm.mem_iff.2 (List.mem_dedup.2 hy'), rfl⟩
          have hle := List.le_of_mem_argmax hy'c hpargmax
          have : countYear rows y' ≤ p.2 := hle
          rw [hp2, ← hp1] at this
          exact this
        · have hz : countYear rows y' = 0 := List.count_eq_zero.2 hy'
          rw [hz]
          exact Nat.zero_le _
      · intro y' heq
        by_cases hy' : y' ∈ rows.map PlayerRow.year
        · have hy'c : (y', countYear rows y') ∈ yearCounts rows := by
            rw [hyc]
            exact List.mem_map.2 ⟨y', hperm.mem_iff.2 (List.mem_dedup.2 hy'), rfl⟩
          have hle : p.2 ≤ (y', countYear rows y').2 := by
            rw [hp2, ← hp1]
            exact le_of_eq heq.symm
          have hidx := List.index_of_argmax hpargmax hy'c hle
          have := indexOf_le_of_sorted_map
            (List.insertionSort (fun a b : Int => a ≤ b) (rows.map PlayerRow.year).dedup)
            (List.sorted_insertionSort _ _) (fun y => (y, countYear rows y)) Prod.fst
            (fun _ => rfl) p (y', countYear rows y') (hyc ▸ hpmem) (hyc ▸ hy'c)
            (hyc ▸ hidx)
          exact this
        · exfalso
          have hz : countYear rows y' = 0 := List.count_eq_zero.2 hy'
          have hpos : 0 < countYear rows y₀ := List.count_pos_iff.2 hy₀ys
          rw [hz, hp1] at heq
          omega

/-- A four-row table with the maximal draft count tied between 1999 and
2000. -/
def yearRows : List PlayerRow :=
  [⟨"A", 2000, none, "T", "", 1, 1, 0, 0⟩, ⟨"B", 1999, none, "T", "", 1, 1, 0, 0⟩,
   ⟨"C", 2000, none, "T", "", 1, 1, 0, 0⟩, ⟨"D", 1999, none, "T", "", 1, 1, 0, 0⟩]

/-- Witness for C3 at a concrete table with a tie between two years. -/
theorem year_with_most_drafts_correct_witness :
    yearRows ≠ [] ∧
    ∃ y : Int, year_with_most_drafts (some yearRows) = .ok (some y) ∧
      (∃ r ∈ yearRows, r.year = y) ∧
      (∀ y' : Int, countYear yearRows y' ≤ countYear yearRows y) ∧
      (∀ y' : Int, countYear yearRows y' = countYear yearRows y → y ≤ y') :=
  ⟨by decide, year_with_most_drafts_correct yearRows (by decide)⟩
